import Mathlib

/-!
# Verification of the govsplice boundary intersection & weighted-aggregation engine

A shallow embedding of `src/govsplice/data.py` (class `Base_BoundedStatistic`:
`__init__`, `_setup_data`, `intersection`), the dataset registry of
`src/govsplice/config.py` (`DATASET_MAPPINGS`), and the `area_stats` entry point
called from `src/govsplice/main.py`.

Modelling conventions:
* Geometries (GeoJSON polygons / shapely geometries) are modelled as closed
  axis-aligned rectangles with rational coordinates; `shapely` planar area and
  pairwise set intersection are the corresponding rectangle operations.  This is
  the fragment-relevant behaviour: the code only ever takes pairwise
  intersections and areas of polygons.
* Coordinate reprojection (`set_crs` / `to_crs`) is modelled as the identity on
  coordinates with an explicit CRS tag on each frame: both the joined dataset
  and the query are mapped through the same (identity) projection into
  "EPSG:27700", preserving the shared-CRS property the code relies on.
* pandas cells are either numeric (`Cell.num`) or non-numeric text that
  `pd.to_numeric(errors := coerce)` cannot parse (`Cell.str`, e.g. the empty
  string).  Numeric-looking text is represented directly as `Cell.num`; the
  coercion `pd.to_numeric(...).fillna(0)` therefore maps `num q` to `q` and
  `str s` to `0`.
* DataFrames are a column-name list plus a row list; per-row attributes are
  association lists.  The geometry column and the derived `area`,
  `intersection` and `ratio` columns are modelled as structure fields rather
  than entries of the column list.  Column-name suffixing that pandas `merge`
  would perform on duplicate non-key columns is not modelled; frames are
  assumed to share only the join key.
* Python exceptions become an `Except PyError` result.  `PyError.geometryError`
  models the exception raised by the shapely `Polygon` constructor when a query
  feature geometry cannot be coerced to a polygon (the spec's `GeometryError`);
  `PyError.keyError` models the pandas `KeyError` on indexing a missing column;
  `PyError.attributeError` models the `AttributeError` raised by
  `Base_BoundedStatistic.__init__`.
-/

namespace Govsplice

/-- A closed axis-aligned rectangle `[x1, x2] × [y1, y2]` with rational
coordinates; the geometry model for polygons.  A rectangle with `x2 < x1` or
`y2 < y1` denotes the empty region. -/
structure Rect where
  x1 : ℚ
  x2 : ℚ
  y1 : ℚ
  y2 : ℚ
deriving DecidableEq, Repr

/-- Planar area of a rectangle (the model of `geometry.area`). -/
def Rect.area (r : Rect) : ℚ :=
  max 0 (r.x2 - r.x1) * max 0 (r.y2 - r.y1)

/-- Pairwise geometric intersection of two rectangles (the model of the
shapely intersection taken by `gpd.overlay(..., how="intersection")`). -/
def Rect.inter (r s : Rect) : Rect :=
  ⟨max r.x1 s.x1, min r.x2 s.x2, max r.y1 s.y1, min r.y2 s.y2⟩

/-- Set membership of a point in a (closed) rectangle. -/
def Rect.Mem (p : ℚ × ℚ) (r : Rect) : Prop :=
  r.x1 ≤ p.1 ∧ p.1 ≤ r.x2 ∧ r.y1 ≤ p.2 ∧ p.2 ≤ r.y2

/-- Membership of a point in the interior of a rectangle. -/
def Rect.IntMem (p : ℚ × ℚ) (r : Rect) : Prop :=
  r.x1 < p.1 ∧ p.1 < r.x2 ∧ r.y1 < p.2 ∧ p.2 < r.y2

/-- A pandas cell: either a numeric value, or non-numeric text that
`pd.to_numeric(errors := coerce)` parses to NaN (e.g. the empty string). -/
inductive Cell where
  | num (q : ℚ)
  | str (s : String)
deriving DecidableEq, Repr

/-- The coercion `pd.to_numeric(x, errors := coerce).fillna(0)` applied to one cell:
numeric cells keep their value, unparseable cells become `0` (via NaN). -/
def toNumericFillZero : Cell → ℚ
  | .num q => q
  | .str _ => 0

/-- Association-list lookup (the model of reading one column value of one
row, and of looking a field up in a result dictionary). -/
def alookup {α : Type} (k : String) : List (String × α) → Option α
  | [] => none
  | (k', v) :: rest => if k' = k then some v else alookup k rest

/-- Numeric value of column `col` in a row's attributes, as the weighted-sum
step reads it (cells at target columns have been coerced to numeric first). -/
def attrNum (col : String) (attrs : List (String × Cell)) : ℚ :=
  match alookup col attrs with
  | some c => toNumericFillZero c
  | none => 0

/-- A geometry of one query feature, as handed to the shapely `Polygon`
constructor: either a closed boundary coercible to a polygon (modelled by its
rectangle), or a geometry that `Polygon` rejects (a point, an open line). -/
inductive QGeom where
  | ring (r : Rect)
  | point
  | openLine
deriving DecidableEq, Repr

/-- The Python exceptions the embedded code can raise. -/
inductive PyError where
  | geometryError
  | keyError
  | attributeError
  | unknownDatasetError
deriving DecidableEq, Repr

/-- Model of `queryBoundary.geometry.map(Polygon)` (data.py line 243): coerce every
feature geometry to a polygon, raising on the first non-coercible one. -/
def coercePolygons : List QGeom → Except PyError (List Rect)
  | [] => .ok []
  | g :: gs =>
    match g with
    | .ring r => (coercePolygons gs).map (r :: ·)
    | _ => .error .geometryError

/-- One row of the raw boundary store: attribute columns plus geometry. -/
structure BoundRow where
  attrs : List (String × Cell)
  geom : Rect
deriving DecidableEq, Repr

/-- The raw boundary GeoDataFrame (`rawBounds`). -/
structure BoundFrame where
  cols : List String
  rows : List BoundRow
  crs : Option String
deriving DecidableEq, Repr

/-- The raw statistics frame (`rawStats`): tabular, no geometry used. -/
structure StatFrame where
  cols : List String
  rows : List (List (String × Cell))
deriving DecidableEq, Repr

/-- One row of the joined dataset `self.data`: geometry, the merged attribute
columns and the derived `area` column. -/
structure JoinedRow where
  geom : Rect
  attrs : List (String × Cell)
  area : ℚ
deriving DecidableEq, Repr

/-- The joined dataset `self.data`. -/
structure JoinedFrame where
  cols : List String
  rows : List JoinedRow
  crs : Option String
deriving DecidableEq, Repr

/-- The empty joined frame (used only to totalise reads of `self.data` on
paths where the code guarantees it is already populated). -/
def emptyJoined : JoinedFrame := ⟨[], [], none⟩

def emptyBounds : BoundFrame := ⟨[], [], none⟩

def emptyStats : StatFrame := ⟨[], []⟩

/-- Model of `self.rawBounds.set_crs("EPSG:4326")` when the loaded boundaries carry no
CRS (data.py lines 222-223). -/
def setCrsIfNone (c : String) (b : BoundFrame) : BoundFrame :=
  if b.crs = none then { b with crs := some c } else b

/-- Model of `self.rawBounds.merge(self.rawStats, on=self.key)` (data.py line 226):
inner join on the key column; a boundary row pairs with every statistics row
carrying an equal key value.  The single key column is kept from the left
frame. -/
def mergeOnKey (b : BoundFrame) (st : StatFrame) (k : String) : JoinedFrame :=
  { cols := b.cols ++ st.cols.filter (fun c => c ≠ k)
    rows := (b.rows.map (fun br =>
      st.rows.filterMap (fun sr =>
        match alookup k br.attrs, alookup k sr with
        | some v1, some v2 =>
          if v1 = v2 then
            some { geom := br.geom
                   attrs := br.attrs ++ sr.filter (fun p => p.1 ≠ k)
                   area := 0 }
          else none
        | _, _ => none))).flatten
    crs := b.crs }

/-- Model of `self.data.to_crs("EPSG:27700")` (data.py line 227): reprojection,
modelled as the identity on coordinates with the CRS tag updated. -/
def toCrs (c : String) (d : JoinedFrame) : JoinedFrame :=
  { d with crs := some c }

/-- Model of `self.data["area"] = self.data.geometry.area` (data.py line 228). -/
def addAreaColumn (d : JoinedFrame) : JoinedFrame :=
  { d with rows := d.rows.map (fun r => { r with area := r.geom.area }) }

/-- Mutable state of a `Base_BoundedStatistic` instance: the six class
attributes and the three instance attributes set by `__init__`.  Python
`Path` values are modelled by their string; `none` models `None`. -/
structure BoundedStatistic where
  boundaryURL : Option String
  boundaryFilePath : Option String
  statsURL : Option String
  statsFilePath : Option String
  key : Option String
  targetCols : Option (List String)
  rawStats : Option StatFrame
  rawBounds : Option BoundFrame
  data : Option JoinedFrame
deriving DecidableEq, Repr

/-- The six class-attribute values a subclass configures. -/
structure BSConfig where
  boundaryURL : Option String
  boundaryFilePath : Option String
  statsURL : Option String
  statsFilePath : Option String
  key : Option String
  targetCols : Option (List String)
deriving DecidableEq, Repr

/-- Python truthiness of an optional string attribute: `None` and the empty
string are falsy. -/
def strTruthy : Option String → Bool
  | none => false
  | some s => s ≠ ""

/-- Python truthiness of an optional `Path` attribute: `None` is falsy and
every `Path` object is truthy (even `Path("")`, which is `Path(".")`). -/
def pathTruthy : Option String → Bool
  | none => false
  | some _ => true

/-- Python truthiness of the optional target-column list: `None` and the
empty list are falsy. -/
def colsTruthy : Option (List String) → Bool
  | none => false
  | some l => l ≠ []

/-- Model of `Base_BoundedStatistic.__init__` (data.py lines 128-138): set `rawStats`,
`rawBounds` and `data` to `None`, then raise `AttributeError` unless all six
class attributes are truthy. -/
def init (c : BSConfig) : Except PyError BoundedStatistic :=
  if strTruthy c.boundaryURL ∧ pathTruthy c.boundaryFilePath ∧
      strTruthy c.statsURL ∧ pathTruthy c.statsFilePath ∧
      strTruthy c.key ∧ colsTruthy c.targetCols then
    .ok { boundaryURL := c.boundaryURL
          boundaryFilePath := c.boundaryFilePath
          statsURL := c.statsURL
          statsFilePath := c.statsFilePath
          key := c.key
          targetCols := c.targetCols
          rawStats := none
          rawBounds := none
          data := none }
  else .error .attributeError

/-- First step of `_setup_data` (data.py lines 217-218): load the statistics
if not already loaded.  `ls` is the frame the subclass loader would produce. -/
def loadStatsStep (ls : StatFrame) (s : BoundedStatistic) : BoundedStatistic :=
  if s.rawStats.isSome then s else { s with rawStats := some ls }

/-- Second step of `_setup_data` (data.py lines 220-223): load the boundaries
if not already loaded, assigning EPSG:4326 when they carry no CRS. -/
def loadBoundsStep (lb : BoundFrame) (s : BoundedStatistic) : BoundedStatistic :=
  if s.rawBounds.isSome then s
  else { s with rawBounds := some (setCrsIfNone "EPSG:4326" lb) }

/-- Third step of `_setup_data` (data.py lines 225-228): build the joined
dataset if not already built: merge on the key, reproject to EPSG:27700 and
add the per-row `area` column. -/
def buildDataStep (s : BoundedStatistic) : BoundedStatistic :=
  if s.data.isSome then s
  else
    { s with
      data := some (addAreaColumn (toCrs "EPSG:27700"
        (mergeOnKey (s.rawBounds.getD emptyBounds) (s.rawStats.getD emptyStats)
          (s.key.getD "")))) }

/-- Model of `Base_BoundedStatistic._setup_data` (data.py lines 215-228). -/
def setupData (ls : StatFrame) (lb : BoundFrame) (s : BoundedStatistic) :
    BoundedStatistic :=
  buildDataStep (loadBoundsStep lb (loadStatsStep ls s))

/-- One pass of the coercion loop body (data.py lines 247-251) for a single
column: `self.data[col] = pd.to_numeric(self.data[col], errors=coerce).fillna(0)`. -/
def coerceColumn (col : String) (d : JoinedFrame) : JoinedFrame :=
  { d with
    rows := d.rows.map (fun r =>
      { r with
        attrs := r.attrs.map (fun p =>
          if p.1 = col then (p.1, Cell.num (toNumericFillZero p.2)) else p) }) }

/-- The whole coercion loop of data.py lines 247-251 over the target columns. -/
def coerceCols (tc : List String) (d : JoinedFrame) : JoinedFrame :=
  tc.foldl (fun acc c => coerceColumn c acc) d

/-- The net effect of the coercion loop on one attribute cell: cells of a
target column are replaced by their numeric coercion, all other cells are
untouched. -/
def coerceCellAt (tc : List String) (p : String × Cell) : String × Cell :=
  if p.1 ∈ tc then (p.1, Cell.num (toNumericFillZero p.2)) else p

/-- The net effect of the whole coercion loop on the joined dataset (proved
equal to `coerceCols` below): every target-column cell is coerced pointwise;
columns, geometry and areas are untouched. -/
def coerceFrame (tc : List String) (d : JoinedFrame) : JoinedFrame :=
  { d with rows := d.rows.map (fun r =>
      { r with attrs := r.attrs.map (coerceCellAt tc) }) }

/-- An intersection fragment: one row of the overlay result, with the carried
attributes, the unit's `area` column, the fragment `intersection` area and the
`ratio` column (data.py lines 253-255). -/
structure Fragment where
  attrs : List (String × Cell)
  area : ℚ
  inter : ℚ
  ratio : ℚ
deriving DecidableEq, Repr

/-- The fragments one unit row contributes to the overlay: one fragment per
query polygon with a non-degenerate (positive-area) geometric intersection;
degenerate intersections yield no polygonal row. -/
def fragmentsOfRow (r : JoinedRow) (polys : List Rect) : List Fragment :=
  polys.filterMap (fun p =>
    let g := r.geom.inter p
    if 0 < g.area then
      some { attrs := r.attrs, area := r.area, inter := g.area
             ratio := g.area / r.area }
    else none)

/-- Model of `gpd.overlay(self.data, queryBoundary, how="intersection")` followed by
the `intersection` and `ratio` column assignments (data.py lines 253-255). -/
def overlayIntersection (rows : List JoinedRow) (polys : List Rect) :
    List Fragment :=
  (rows.map (fun r => fragmentsOfRow r polys)).flatten

/-- The weighted sum `(intersect[col] * intersect["ratio"]).sum()` for one
column (data.py lines 260-261). -/
def weightedSum (col : String) (frags : List Fragment) : ℚ :=
  (frags.map (fun f => attrNum col f.attrs * f.ratio)).sum

/-- The final aggregation loop of data.py lines 257-263: for each target
column present in the overlay result's columns, record the weighted sum. -/
def aggregate (tc : List String) (cols : List String) (frags : List Fragment) :
    List (String × ℚ) :=
  tc.filterMap (fun col =>
    if col ∈ cols then some (col, weightedSum col frags) else none)

/-- Model of `Base_BoundedStatistic.intersection` (data.py lines 230-263): run
`_setup_data`, coerce every query feature to a polygon (raising
`GeometryError` on failure), reproject the query, coerce the target columns of
the shared joined dataset to numeric **in place** (raising `KeyError` when a
target column is missing), overlay, and aggregate.  The returned state carries
the (mutated) joined dataset alongside the aggregate result. -/
def intersection (ls : StatFrame) (lb : BoundFrame) (s : BoundedStatistic)
    (queryBoundary : List QGeom) :
    Except PyError (BoundedStatistic × List (String × ℚ)) :=
  let s := setupData ls lb s
  match coercePolygons queryBoundary with
  | .error e => .error e
  | .ok polys =>
    let tc := s.targetCols.getD []
    let d := s.data.getD emptyJoined
    if tc.all (fun c => decide (c ∈ d.cols)) then
      let d' := coerceCols tc d
      let frags := overlayIntersection d'.rows polys
      .ok ({ s with data := some d' }, aggregate tc d'.cols frags)
    else .error .keyError

/-- The aggregate value an `intersection` run reports for one field (`0` when
the run failed or the field is absent). -/
def getCount (r : Except PyError (BoundedStatistic × List (String × ℚ)))
    (col : String) : ℚ :=
  match r with
  | .ok (_, counts) => (alookup col counts).getD 0
  | .error _ => 0

/-! ## The registry and the `area_stats` entry point

`src/govsplice/main.py` line 161 serves `simple_age_bins` requests by calling
`app.state.database.area_stats(queryArea, "simple_age_bins")`, and
`src/govsplice/config.py` lines 57-59 hold the dataset registry
`DATASET_MAPPINGS`.  The `DataBase` class with its `area_stats` method is not
part of the sources (`database.py` contains only the unrelated `GovspliceDB`
prototype), so `area_stats` below is modelled from the spec. -/

/-- One registry entry: a configured, built bounded-statistic dataset handle
together with the frames its loaders produce. -/
structure RegEntry where
  state : BoundedStatistic
  loadStats : StatFrame
  loadBounds : BoundFrame
deriving DecidableEq, Repr

/-- Modelled from the spec: the `area_stats(queryBoundary, datasetId)`
operation of the Dataset Registry (spec section 4.4), whose implementation
(`DataBase.area_stats`, called from main.py line 161) is missing from the
sources.  Per the spec it fails with `UnknownDatasetError` when `datasetId` is
not registered, and otherwise delegates to the Intersection Engine and the
Weighted Aggregator of the registered dataset and returns the aggregate
result. -/
def area_stats (reg : List (String × RegEntry)) (queryBoundary : List QGeom)
    (datasetId : String) : Except PyError (List (String × ℚ)) :=
  match alookup datasetId reg with
  | none => .error .unknownDatasetError
  | some e => (intersection e.loadStats e.loadBounds e.state queryBoundary).map
      (fun p => p.2)

/-! ## Embedded dataset configurations (data.py lines 266-292, config.py) -/

/-- The class-attribute defaults of `Base_BoundedStatistic` itself (data.py
lines 121-126): everything `None`. -/
def baseClassConfig : BSConfig :=
  { boundaryURL := none, boundaryFilePath := none, statsURL := none
    statsFilePath := none, key := none, targetCols := none }

/-- The configuration accumulated by the subclass chain
`Boundary_LSOACensus2021` → `Stat_AgeGenderBands2021` (data.py lines
266-292): boundary URL, boundary file path and join key from the boundary
class; stats URL, stats file path and target columns from the stats class. -/
def statAgeGenderBands2021Config : BSConfig :=
  { boundaryURL := some "https://services1.arcgis.com/ESMARspQHYMw9BZ9/arcgis/rest/services/Lower_layer_Super_Output_Areas_December_2021_Boundaries_EW_BSC_V4/FeatureServer/0/query?outFields=*&where=1%3D1&f=geojson&crs=EPSG:4326&resultOffset="
    boundaryFilePath := some "data/bounded/Boundary_LSOACensus2021.geojson"
    statsURL := some "https://www.ons.gov.uk/file?uri=/peoplepopulationandcommunity/populationandmigration/populationestimates/datasets/lowersuperoutputareamidyearpopulationestimatesnationalstatistics/mid2022revisednov2025tomid2024/sapelsoabroadage20222024.xlsx"
    statsFilePath := some "data/bounded/Stat_AgeGenderBands2021.csv"
    key := some "LSOA21CD"
    targetCols := some ["F0-15", "F16-29", "F30-44", "F45-64", "F65+",
                        "M0-15", "M16-29", "M30-44", "M45-64", "M65+"] }

/-- Model of `config.DATASET_MAPPINGS` (config.py lines 57-59): the registry of
configured datasets, keyed by the human-facing dataset identifier. -/
def DATASET_MAPPINGS : List (String × BSConfig) :=
  [("simple_age_bins", statAgeGenderBands2021Config)]

/-! ## Concrete fixtures

The spec's concrete scenario (section 8): two adjacent unit squares of area
100 (side 10, stacked vertically so that one rectangle can cover the left
half of both), with `count` values 50 and 30, and a query polygon covering
exactly the left half of each. -/

/-- Statistics table of the concrete scenario. -/
def demoStats : StatFrame :=
  { cols := ["code", "count"]
    rows := [[("code", .str "A"), ("count", .num 50)],
             [("code", .str "B"), ("count", .num 30)]] }

/-- Boundary store of the concrete scenario: two adjacent squares of side 10
(area 100 each). -/
def demoBounds : BoundFrame :=
  { cols := ["code"]
    rows := [{ attrs := [("code", .str "A")], geom := ⟨0, 10, 0, 10⟩ },
             { attrs := [("code", .str "B")], geom := ⟨0, 10, 10, 20⟩ }]
    crs := none }

/-- A freshly initialised dataset handle for the concrete scenario. -/
def demoState : BoundedStatistic :=
  { boundaryURL := some "u", boundaryFilePath := some "p"
    statsURL := some "su", statsFilePath := some "sp"
    key := some "code", targetCols := some ["count"]
    rawStats := none, rawBounds := none, data := none }

/-- The concrete query boundary: the left half (width 5) of both squares. -/
def demoQuery : List QGeom := [.ring ⟨0, 5, 0, 20⟩]

/-- A statistics table with a non-numeric (empty-string) `count` cell for
unit `B`, for the coercion and mutation claims. -/
def dirtyStats : StatFrame :=
  { cols := ["code", "count"]
    rows := [[("code", .str "A"), ("count", .num 50)],
             [("code", .str "B"), ("count", .str "")]] }

/-- The table `dirtyStats` with the corrupt cell replaced by an explicit numeric 0. -/
def dirtyStatsZeroed : StatFrame :=
  { cols := ["code", "count"]
    rows := [[("code", .str "A"), ("count", .num 50)],
             [("code", .str "B"), ("count", .num 0)]] }

/-- A one-entry registry for the registry fixtures, keyed like
`DATASET_MAPPINGS`. -/
def demoRegistry : List (String × RegEntry) :=
  [("simple_age_bins",
    { state := demoState, loadStats := demoStats, loadBounds := demoBounds })]

/-- The joined dataset the builder produces for the concrete scenario. -/
def demoJoined : JoinedFrame :=
  { cols := ["code", "count"]
    rows := [{ geom := ⟨0, 10, 0, 10⟩
               attrs := [("code", .str "A"), ("count", .num 50)], area := 100 },
             { geom := ⟨0, 10, 10, 20⟩
               attrs := [("code", .str "B"), ("count", .num 30)], area := 100 }]
    crs := some "EPSG:27700" }

/-- The joined dataset built from `dirtyStats`: unit `B` carries a
non-numeric `count` cell. -/
def demoDirtyJoined : JoinedFrame :=
  { cols := ["code", "count"]
    rows := [{ geom := ⟨0, 10, 0, 10⟩
               attrs := [("code", .str "A"), ("count", .num 50)], area := 100 },
             { geom := ⟨0, 10, 10, 20⟩
               attrs := [("code", .str "B"), ("count", .str "")], area := 100 }]
    crs := some "EPSG:27700" }

/-- The frame `demoDirtyJoined` after the in-place numeric coercion of the `count`
column: the corrupt cell has become an explicit numeric `0`. -/
def demoDirtyCoerced : JoinedFrame :=
  { cols := ["code", "count"]
    rows := [{ geom := ⟨0, 10, 0, 10⟩
               attrs := [("code", .str "A"), ("count", .num 50)], area := 100 },
             { geom := ⟨0, 10, 10, 20⟩
               attrs := [("code", .str "B"), ("count", .num 0)], area := 100 }]
    crs := some "EPSG:27700" }

/-- The full dataset-handle state after running one `intersection` request on
the dirty concrete scenario. -/
def demoDirtyPostState : BoundedStatistic :=
  { boundaryURL := some "u", boundaryFilePath := some "p"
    statsURL := some "su", statsFilePath := some "sp"
    key := some "code", targetCols := some ["count"]
    rawStats := some dirtyStats
    rawBounds := some { demoBounds with crs := some "EPSG:4326" }
    data := some demoDirtyCoerced }

/-- The full dataset-handle state after running one `intersection` request on
the clean concrete scenario. -/
def demoPostState : BoundedStatistic :=
  { boundaryURL := some "u", boundaryFilePath := some "p"
    statsURL := some "su", statsFilePath := some "sp"
    key := some "code", targetCols := some ["count"]
    rawStats := some demoStats
    rawBounds := some { demoBounds with crs := some "EPSG:4326" }
    data := some demoJoined }

/-- Predicate: `L` and `R` partition `Q` by a full-height vertical cut: `L` is the left
part, `R` the right part, and they share the cut line `x = L.x2 = R.x1`. -/
def IsVSplit (Q L R : Rect) : Prop :=
  L.x1 = Q.x1 ∧ L.x2 = R.x1 ∧ R.x2 = Q.x2 ∧
  L.y1 = Q.y1 ∧ L.y2 = Q.y2 ∧ R.y1 = Q.y1 ∧ R.y2 = Q.y2

/-- Predicate: `B` and `T` partition `Q` by a full-width horizontal cut: `B` is the
bottom part, `T` the top part. -/
def IsHSplit (Q B T : Rect) : Prop :=
  B.y1 = Q.y1 ∧ B.y2 = T.y1 ∧ T.y2 = Q.y2 ∧
  B.x1 = Q.x1 ∧ B.x2 = Q.x2 ∧ T.x1 = Q.x1 ∧ T.x2 = Q.x2

/-! ## Supporting lemmas -/

theorem strTruthy_eq_false (o : Option String) :
    strTruthy o = false ↔ o = none ∨ o = some "" := by
  cases o with
  | none => simp [strTruthy]
  | some s => simp [strTruthy]

theorem pathTruthy_eq_false (o : Option String) :
    pathTruthy o = false ↔ o = none := by
  cases o with
  | none => simp [pathTruthy]
  | some s => simp [pathTruthy]

theorem colsTruthy_eq_false (o : Option (List String)) :
    colsTruthy o = false ↔ o = none ∨ o = some [] := by
  cases o with
  | none => simp [colsTruthy]
  | some l => simp [colsTruthy]

theorem loadStatsStep_rawStats_isSome (ls : StatFrame) (s : BoundedStatistic) :
    (loadStatsStep ls s).rawStats.isSome := by
  unfold loadStatsStep
  split_ifs with h
  · exact h
  · rfl

theorem loadStatsStep_of_isSome (ls : StatFrame) (s : BoundedStatistic)
    (h : s.rawStats.isSome) : loadStatsStep ls s = s := by
  unfold loadStatsStep
  exact if_pos h

theorem loadBoundsStep_rawStats (lb : BoundFrame) (s : BoundedStatistic) :
    (loadBoundsStep lb s).rawStats = s.rawStats := by
  unfold loadBoundsStep
  split_ifs <;> rfl

theorem loadBoundsStep_rawBounds_isSome (lb : BoundFrame) (s : BoundedStatistic) :
    (loadBoundsStep lb s).rawBounds.isSome := by
  unfold loadBoundsStep
  split_ifs with h
  · exact h
  · rfl

theorem loadBoundsStep_of_isSome (lb : BoundFrame) (s : BoundedStatistic)
    (h : s.rawBounds.isSome) : loadBoundsStep lb s = s := by
  unfold loadBoundsStep
  exact if_pos h

theorem buildDataStep_rawStats (s : BoundedStatistic) :
    (buildDataStep s).rawStats = s.rawStats := by
  unfold buildDataStep
  split_ifs <;> rfl

theorem buildDataStep_rawBounds (s : BoundedStatistic) :
    (buildDataStep s).rawBounds = s.rawBounds := by
  unfold buildDataStep
  split_ifs <;> rfl

theorem buildDataStep_data_isSome (s : BoundedStatistic) :
    (buildDataStep s).data.isSome := by
  unfold buildDataStep
  split_ifs with h
  · exact h
  · rfl

theorem buildDataStep_of_isSome (s : BoundedStatistic)
    (h : s.data.isSome) : buildDataStep s = s := by
  unfold buildDataStep
  exact if_pos h

theorem loadStatsStep_data (ls : StatFrame) (s : BoundedStatistic) :
    (loadStatsStep ls s).data = s.data := by
  unfold loadStatsStep
  split_ifs <;> rfl

theorem loadBoundsStep_data (lb : BoundFrame) (s : BoundedStatistic) :
    (loadBoundsStep lb s).data = s.data := by
  unfold loadBoundsStep
  split_ifs <;> rfl

theorem loadStatsStep_targetCols (ls : StatFrame) (s : BoundedStatistic) :
    (loadStatsStep ls s).targetCols = s.targetCols := by
  unfold loadStatsStep
  split_ifs <;> rfl

theorem loadBoundsStep_targetCols (lb : BoundFrame) (s : BoundedStatistic) :
    (loadBoundsStep lb s).targetCols = s.targetCols := by
  unfold loadBoundsStep
  split_ifs <;> rfl

theorem buildDataStep_targetCols (s : BoundedStatistic) :
    (buildDataStep s).targetCols = s.targetCols := by
  unfold buildDataStep
  split_ifs <;> rfl

theorem setupData_targetCols (ls : StatFrame) (lb : BoundFrame)
    (s : BoundedStatistic) : (setupData ls lb s).targetCols = s.targetCols := by
  unfold setupData
  rw [buildDataStep_targetCols, loadBoundsStep_targetCols, loadStatsStep_targetCols]

theorem setupData_data_of_some (ls : StatFrame) (lb : BoundFrame)
    (s : BoundedStatistic) (d : JoinedFrame) (h : s.data = some d) :
    (setupData ls lb s).data = some d := by
  unfold setupData
  rw [buildDataStep_of_isSome, loadBoundsStep_data, loadStatsStep_data, h]
  rw [loadBoundsStep_data, loadStatsStep_data, h]
  rfl

/-! ## C5: the joined-dataset builder is idempotent -/

/-- C5: calling the Joined Dataset Builder (`_setup_data`) a second time
after the dataset is already built is a no-op: the second call changes
nothing (hence per-row `area` values and row counts are identical to those
after a single call). -/
theorem setupData_idempotent (ls : StatFrame) (lb : BoundFrame)
    (s : BoundedStatistic) :
    setupData ls lb (setupData ls lb s) = setupData ls lb s := by
  have h1 : (setupData ls lb s).rawStats.isSome := by
    unfold setupData
    rw [buildDataStep_rawStats, loadBoundsStep_rawStats]
    exact loadStatsStep_rawStats_isSome ls s
  have h2 : (setupData ls lb s).rawBounds.isSome := by
    unfold setupData
    rw [buildDataStep_rawBounds]
    exact loadBoundsStep_rawBounds_isSome lb _
  have h3 : (setupData ls lb s).data.isSome := buildDataStep_data_isSome _
  show buildDataStep (loadBoundsStep lb (loadStatsStep ls (setupData ls lb s)))
      = setupData ls lb s
  rw [loadStatsStep_of_isSome _ _ h1, loadBoundsStep_of_isSome _ _ h2,
    buildDataStep_of_isSome _ h3]

/-! ## C10: constructor attribute validation -/

/-- C10: `Base_BoundedStatistic.__init__` raises `AttributeError` exactly
when at least one of the six required class attributes is unset or falsy
(`None`, an empty URL/key string, or an empty target-column list; a set
`Path` is always truthy); when all six are truthy, construction succeeds
with `rawStats`, `rawBounds` and `data` initialised to `None`. -/
theorem init_attributeError_characterization (c : BSConfig) :
    (init c = .error .attributeError ↔
      ((c.boundaryURL = none ∨ c.boundaryURL = some "") ∨
       c.boundaryFilePath = none ∨
       (c.statsURL = none ∨ c.statsURL = some "") ∨
       c.statsFilePath = none ∨
       (c.key = none ∨ c.key = some "") ∨
       (c.targetCols = none ∨ c.targetCols = some []))) ∧
    (¬((c.boundaryURL = none ∨ c.boundaryURL = some "") ∨
       c.boundaryFilePath = none ∨
       (c.statsURL = none ∨ c.statsURL = some "") ∨
       c.statsFilePath = none ∨
       (c.key = none ∨ c.key = some "") ∨
       (c.targetCols = none ∨ c.targetCols = some [])) →
      init c = .ok { boundaryURL := c.boundaryURL
                     boundaryFilePath := c.boundaryFilePath
                     statsURL := c.statsURL
                     statsFilePath := c.statsFilePath
                     key := c.key
                     targetCols := c.targetCols
                     rawStats := none, rawBounds := none, data := none }) := by
  unfold init
  split_ifs with h
  · obtain ⟨t1, t2, t3, t4, t5, t6⟩ := h
    constructor
    · constructor
      · intro heq
        exact absurd heq (by simp)
      · intro hdisj
        exfalso
        rcases hdisj with h' | h' | h' | h' | h' | h'
        · rw [(strTruthy_eq_false _).mpr h'] at t1
          exact Bool.false_ne_true t1
        · rw [(pathTruthy_eq_false _).mpr h'] at t2
          exact Bool.false_ne_true t2
        · rw [(strTruthy_eq_false _).mpr h'] at t3
          exact Bool.false_ne_true t3
        · rw [(pathTruthy_eq_false _).mpr h'] at t4
          exact Bool.false_ne_true t4
        · rw [(strTruthy_eq_false _).mpr h'] at t5
          exact Bool.false_ne_true t5
        · rw [(colsTruthy_eq_false _).mpr h'] at t6
          exact Bool.false_ne_true t6
    · intro _
      rfl
  · have hdisj : (c.boundaryURL = none ∨ c.boundaryURL = some "") ∨
        c.boundaryFilePath = none ∨
        (c.statsURL = none ∨ c.statsURL = some "") ∨
        c.statsFilePath = none ∨
        (c.key = none ∨ c.key = some "") ∨
        (c.targetCols = none ∨ c.targetCols = some []) := by
      by_contra hn
      apply h
      push_neg at hn
      obtain ⟨⟨n1, n2⟩, n3, ⟨n4, n5⟩, n6, ⟨n7, n8⟩, n9, n10⟩ := hn
      refine ⟨?_, ?_, ?_, ?_, ?_, ?_⟩
      · rcases Bool.eq_false_or_eq_true (strTruthy c.boundaryURL) with hb | hb
        · exact hb
        · rcases (strTruthy_eq_false _).mp hb with h' | h'
          · exact absurd h' n1
          · exact absurd h' n2
      · rcases Bool.eq_false_or_eq_true (pathTruthy c.boundaryFilePath) with hb | hb
        · exact hb
        · exact absurd ((pathTruthy_eq_false _).mp hb) n3
      · rcases Bool.eq_false_or_eq_true (strTruthy c.statsURL) with hb | hb
        · exact hb
        · rcases (strTruthy_eq_false _).mp hb with h' | h'
          · exact absurd h' n4
          · exact absurd h' n5
      · rcases Bool.eq_false_or_eq_true (pathTruthy c.statsFilePath) with hb | hb
        · exact hb
        · exact absurd ((pathTruthy_eq_false _).mp hb) n6
      · rcases Bool.eq_false_or_eq_true (strTruthy c.key) with hb | hb
        · exact hb
        · rcases (strTruthy_eq_false _).mp hb with h' | h'
          · exact absurd h' n7
          · exact absurd h' n8
      · rcases Bool.eq_false_or_eq_true (colsTruthy c.targetCols) with hb | hb
        · exact hb
        · rcases (colsTruthy_eq_false _).mp hb with h' | h'
          · exact absurd h' n9
          · exact absurd h' n10
    exact ⟨⟨fun _ => hdisj, fun _ => rfl⟩, fun hn => absurd hdisj hn⟩

/-- Witness for C10: the base class itself (all attributes `None`) raises
`AttributeError`, while the fully configured `Stat_AgeGenderBands2021`
dataset constructs successfully with its instance attributes `None`. -/
theorem init_attributeError_witness :
    init baseClassConfig = .error .attributeError ∧
    init statAgeGenderBands2021Config =
      .ok { boundaryURL := statAgeGenderBands2021Config.boundaryURL
            boundaryFilePath := statAgeGenderBands2021Config.boundaryFilePath
            statsURL := statAgeGenderBands2021Config.statsURL
            statsFilePath := statAgeGenderBands2021Config.statsFilePath
            key := statAgeGenderBands2021Config.key
            targetCols := statAgeGenderBands2021Config.targetCols
            rawStats := none, rawBounds := none, data := none } := by
  constructor
  · exact (init_attributeError_characterization baseClassConfig).1.mpr
      (Or.inl (Or.inl rfl))
  · exact (init_attributeError_characterization statAgeGenderBands2021Config).2
      (by decide)

/-! ## C2: the registry entry point -/

/-- C2: `area_stats` fails with `UnknownDatasetError` for every dataset
identifier that is not registered, and for a registered identifier delegates
to `intersection` (the Intersection Engine plus Weighted Aggregator of the
registered dataset) and returns the aggregate result. -/
theorem area_stats_characterization (reg : List (String × RegEntry))
    (q : List QGeom) (datasetId : String) :
    (alookup datasetId reg = none →
      area_stats reg q datasetId = .error .unknownDatasetError) ∧
    (∀ e, alookup datasetId reg = some e →
      area_stats reg q datasetId =
        (intersection e.loadStats e.loadBounds e.state q).map (fun p => p.2)) := by
  constructor
  · intro h
    unfold area_stats
    rw [h]
  · intro e h
    unfold area_stats
    rw [h]

/-- Witness for C2: the one-entry demo registry rejects an unknown
identifier and serves the registered one by delegation. -/
theorem area_stats_witness :
    area_stats demoRegistry demoQuery "nonexistent" =
      .error .unknownDatasetError ∧
    area_stats demoRegistry demoQuery "simple_age_bins" =
      (intersection demoStats demoBounds demoState demoQuery).map
        (fun p => p.2) := by
  constructor
  · exact (area_stats_characterization demoRegistry demoQuery "nonexistent").1
      (by decide)
  · exact (area_stats_characterization demoRegistry demoQuery "simple_age_bins").2
      { state := demoState, loadStats := demoStats, loadBounds := demoBounds }
      (by decide)

/-! ## C8: geometry coercion failure -/

theorem coercePolygons_error (q : List QGeom)
    (h : ∃ g ∈ q, ∀ r, g ≠ QGeom.ring r) :
    coercePolygons q = .error .geometryError := by
  induction q with
  | nil =>
    rcases h with ⟨g, hg, _⟩
    cases hg
  | cons g gs ih =>
    rcases h with ⟨g', hg', hng⟩
    rcases List.mem_cons.mp hg' with h1 | h1
    · subst h1
      cases g' with
      | ring r => exact absurd rfl (hng r)
      | point => rfl
      | openLine => rfl
    · cases g with
      | ring r =>
        have herr := ih ⟨g', h1, hng⟩
        show (coercePolygons gs).map (fun x => r :: x) = .error .geometryError
        rw [herr]
        rfl
      | point => rfl
      | openLine => rfl

/-- C8: when any query feature geometry cannot be coerced to a polygon (it
is a point or an open line), `intersection` fails with the geometry error
raised by the `Polygon` constructor (the spec's `GeometryError`); nothing is
retried. -/
theorem intersection_geometryError (ls : StatFrame) (lb : BoundFrame)
    (s : BoundedStatistic) (q : List QGeom)
    (h : ∃ g ∈ q, ∀ r, g ≠ QGeom.ring r) :
    intersection ls lb s q = .error .geometryError := by
  unfold intersection
  rw [coercePolygons_error q h]

/-- Witness for C8: a query holding a valid ring plus a point feature fails
with the geometry error. -/
theorem intersection_geometryError_witness :
    intersection demoStats demoBounds demoState
      [QGeom.ring ⟨0, 1, 0, 1⟩, QGeom.point] = .error .geometryError :=
  intersection_geometryError demoStats demoBounds demoState _
    ⟨QGeom.point, by decide, fun r h => QGeom.noConfusion h⟩

/-! ## The coercion loop: closed form and preservation -/

theorem coerceCellAt_cons (c : String) (tc : List String) (p : String × Cell) :
    coerceCellAt tc
      (if p.1 = c then (p.1, Cell.num (toNumericFillZero p.2)) else p)
      = coerceCellAt (c :: tc) p := by
  by_cases h : p.1 = c
  · rw [if_pos h]
    unfold coerceCellAt
    have hmem : p.1 ∈ c :: tc := by rw [h]; exact List.mem_cons_self c tc
    rw [if_pos hmem]
    split_ifs <;> rfl
  · rw [if_neg h]
    unfold coerceCellAt
    by_cases h2 : p.1 ∈ tc
    · rw [if_pos h2, if_pos (List.mem_cons_of_mem c h2)]
    · rw [if_neg h2, if_neg (by simp [List.mem_cons, h, h2])]

theorem coerceCols_eq_coerceFrame (tc : List String) (d : JoinedFrame) :
    coerceCols tc d = coerceFrame tc d := by
  induction tc generalizing d with
  | nil =>
    show d = _
    unfold coerceFrame coerceCellAt
    simp
  | cons c tc ih =>
    show coerceCols tc (coerceColumn c d) = _
    rw [ih]
    unfold coerceFrame coerceColumn
    simp only [List.map_map]
    congr 1
    apply List.map_congr_left
    intro r _
    simp only [Function.comp]
    congr 1
    rw [List.map_map]
    apply List.map_congr_left
    intro p _
    simp only [Function.comp]
    exact coerceCellAt_cons c tc p

theorem coerceFrame_cols (tc : List String) (d : JoinedFrame) :
    (coerceFrame tc d).cols = d.cols := rfl

theorem coerceFrame_geoms (tc : List String) (d : JoinedFrame) :
    (coerceFrame tc d).rows.map (fun r => r.geom) = d.rows.map (fun r => r.geom) := by
  unfold coerceFrame
  rw [List.map_map]
  rfl

theorem coerceFrame_areas (tc : List String) (d : JoinedFrame) :
    (coerceFrame tc d).rows.map (fun r => r.area) = d.rows.map (fun r => r.area) := by
  unfold coerceFrame
  rw [List.map_map]
  rfl

theorem coerceFrame_attrs (tc : List String) (d : JoinedFrame) :
    (coerceFrame tc d).rows.map (fun r => r.attrs)
      = d.rows.map (fun r => r.attrs.map (coerceCellAt tc)) := by
  unfold coerceFrame
  rw [List.map_map]
  rfl

theorem coerceCellAt_idem (tc : List String) (p : String × Cell) :
    coerceCellAt tc (coerceCellAt tc p) = coerceCellAt tc p := by
  unfold coerceCellAt
  by_cases h : p.1 ∈ tc
  · simp [h, toNumericFillZero]
  · simp [h]

theorem coerceFrame_idem (tc : List String) (d : JoinedFrame) :
    coerceFrame tc (coerceFrame tc d) = coerceFrame tc d := by
  unfold coerceFrame
  simp only [List.map_map]
  congr 1
  apply List.map_congr_left
  intro r _
  simp only [Function.comp]
  congr 1
  rw [List.map_map]
  apply List.map_congr_left
  intro p _
  exact coerceCellAt_idem tc p

/-! ## The successful path of `intersection` -/

theorem intersection_ok_of (ls : StatFrame) (lb : BoundFrame)
    (s : BoundedStatistic) (q : List QGeom) (polys : List Rect)
    (hq : coercePolygons q = .ok polys)
    (hcols : ∀ c ∈ s.targetCols.getD [],
      c ∈ ((setupData ls lb s).data.getD emptyJoined).cols) :
    intersection ls lb s q =
      .ok ({ setupData ls lb s with
             data := some (coerceCols (s.targetCols.getD [])
               ((setupData ls lb s).data.getD emptyJoined)) },
           aggregate (s.targetCols.getD [])
             (coerceCols (s.targetCols.getD [])
               ((setupData ls lb s).data.getD emptyJoined)).cols
             (overlayIntersection
               (coerceCols (s.targetCols.getD [])
                 ((setupData ls lb s).data.getD emptyJoined)).rows polys)) := by
  have htc : (setupData ls lb s).targetCols = s.targetCols :=
    setupData_targetCols ls lb s
  have hcond : (((setupData ls lb s).targetCols.getD []).all
      (fun c => decide (c ∈ ((setupData ls lb s).data.getD emptyJoined).cols)))
      = true := by
    rw [htc]
    exact List.all_eq_true.mpr (fun c hc => decide_eq_true (hcols c hc))
  unfold intersection
  rw [hq]
  show (if _ = true then _ else _) = _
  rw [if_pos hcond]
  simp only [htc]

theorem intersection_ok_inv (ls : StatFrame) (lb : BoundFrame)
    (s : BoundedStatistic) (q : List QGeom) (s' : BoundedStatistic)
    (res : List (String × ℚ))
    (h : intersection ls lb s q = .ok (s', res)) :
    ∃ polys, coercePolygons q = .ok polys ∧
      (∀ c ∈ s.targetCols.getD [],
        c ∈ ((setupData ls lb s).data.getD emptyJoined).cols) ∧
      s' = { setupData ls lb s with
             data := some (coerceCols (s.targetCols.getD [])
               ((setupData ls lb s).data.getD emptyJoined)) } ∧
      res = aggregate (s.targetCols.getD [])
             (coerceCols (s.targetCols.getD [])
               ((setupData ls lb s).data.getD emptyJoined)).cols
             (overlayIntersection
               (coerceCols (s.targetCols.getD [])
                 ((setupData ls lb s).data.getD emptyJoined)).rows polys) := by
  have htc : (setupData ls lb s).targetCols = s.targetCols :=
    setupData_targetCols ls lb s
  unfold intersection at h
  cases hq : coercePolygons q with
  | error e =>
    rw [hq] at h
    exact absurd h (by simp)
  | ok polys =>
    rw [hq] at h
    refine ⟨polys, rfl, ?_⟩
    have h' : (if (((setupData ls lb s).targetCols.getD []).all
          (fun c => decide
            (c ∈ ((setupData ls lb s).data.getD emptyJoined).cols))) = true
        then Except.ok (ε := PyError)
          ({ setupData ls lb s with
             data := some (coerceCols ((setupData ls lb s).targetCols.getD [])
               ((setupData ls lb s).data.getD emptyJoined)) },
           aggregate ((setupData ls lb s).targetCols.getD [])
             (coerceCols ((setupData ls lb s).targetCols.getD [])
               ((setupData ls lb s).data.getD emptyJoined)).cols
             (overlayIntersection
               (coerceCols ((setupData ls lb s).targetCols.getD [])
                 ((setupData ls lb s).data.getD emptyJoined)).rows polys))
        else Except.error PyError.keyError) = .ok (s', res) := h
    by_cases hcond : (((setupData ls lb s).targetCols.getD []).all
        (fun c => decide
          (c ∈ ((setupData ls lb s).data.getD emptyJoined).cols))) = true
    · rw [if_pos hcond, Except.ok.injEq, Prod.mk.injEq] at h'
      have hmem : ∀ c ∈ s.targetCols.getD [],
          c ∈ ((setupData ls lb s).data.getD emptyJoined).cols := by
        intro c hc
        have := List.all_eq_true.mp hcond c (by rw [htc]; exact hc)
        exact of_decide_eq_true this
      refine ⟨hmem, ?_, ?_⟩
      · rw [← h'.1, htc]
      · rw [← h'.2, htc]
    · rw [if_neg hcond] at h'
      exact absurd h' (by simp)

/-! ## The aggregation loop -/

theorem aggregate_alookup (tc cols : List String) (frags : List Fragment)
    (col : String) :
    alookup col (aggregate tc cols frags) =
      if col ∈ tc ∧ col ∈ cols then some (weightedSum col frags) else none := by
  induction tc with
  | nil => simp [aggregate, alookup]
  | cons c tc ih =>
    unfold aggregate at ih ⊢
    rw [List.filterMap_cons]
    by_cases hc : c ∈ cols
    · rw [if_pos hc]
      by_cases hcc : c = col
      · subst hcc
        show (if c = c then some (weightedSum c frags) else _) = _
        rw [if_pos rfl, if_pos ⟨List.mem_cons_self c tc, hc⟩]
      · show (if c = col then _ else alookup col _) = _
        rw [if_neg hcc, ih]
        have hiff : (col ∈ c :: tc ∧ col ∈ cols) ↔ (col ∈ tc ∧ col ∈ cols) := by
          constructor
          · rintro ⟨hm, hcol⟩
            rcases List.mem_cons.mp hm with h3 | h3
            · exact absurd h3.symm hcc
            · exact ⟨h3, hcol⟩
          · rintro ⟨hm, hcol⟩
            exact ⟨List.mem_cons_of_mem c hm, hcol⟩
        exact (if_congr hiff rfl rfl).symm
    · rw [if_neg hc, ih]
      have hiff : (col ∈ c :: tc ∧ col ∈ cols) ↔ (col ∈ tc ∧ col ∈ cols) := by
        constructor
        · rintro ⟨hm, hcol⟩
          rcases List.mem_cons.mp hm with h3 | h3
          · exact absurd (h3 ▸ hcol) hc
          · exact ⟨h3, hcol⟩
        · rintro ⟨hm, hcol⟩
          exact ⟨List.mem_cons_of_mem c hm, hcol⟩
      exact (if_congr hiff rfl rfl).symm

/-! ## C6: absent fields are omitted -/

/-- C6: the aggregation loop omits from the result every target field that is
absent from the fragment set's columns (it is not reported as zero), and a
field key appears in the result only when the field is present in the
fragment schema. -/
theorem aggregate_omits_absent_fields (tc cols : List String)
    (frags : List Fragment) (col : String) :
    (col ∈ tc → (alookup col (aggregate tc cols frags) = none ↔ col ∉ cols)) ∧
    ((alookup col (aggregate tc cols frags)).isSome → col ∈ cols) := by
  constructor
  · intro hc
    rw [aggregate_alookup]
    split_ifs with h
    · simp [h.2]
    · simp
      intro hcol
      exact h ⟨hc, hcol⟩
  · intro hs
    rw [aggregate_alookup] at hs
    by_cases h : col ∈ tc ∧ col ∈ cols
    · exact h.2
    · rw [if_neg h] at hs
      exact absurd hs (by simp)

/-- Witness for C6: with target fields `Total` and `count` but fragment
columns `code` and `count` only, the `Total` key is omitted from the
aggregate while `count` is present. -/
theorem aggregate_omits_absent_fields_witness :
    (alookup "Total" (aggregate ["Total", "count"] ["code", "count"] [])
      = none) ∧
    ((alookup "count" (aggregate ["Total", "count"] ["code", "count"] [])).isSome
      → "count" ∈ ["code", "count"]) := by
  constructor
  · exact (aggregate_omits_absent_fields ["Total", "count"] ["code", "count"]
      [] "Total").1 (by decide) |>.mpr (by decide)
  · exact (aggregate_omits_absent_fields ["Total", "count"] ["code", "count"]
      [] "count").2

/-! ## C1: the aggregate is the ratio-weighted sum over fragments -/

/-- C1: on every successful run, the aggregate result maps each target field
to the sum over all intersection fragments of the field value times the
fragment's ratio; each fragment's ratio is its intersection area divided by
its unit's whole area; and on the spec's concrete scenario (two unit squares
of area 100 with counts 50 and 30, query covering the left half of each) the
`count` aggregate is exactly 40. -/
theorem intersection_weighted_sum :
    (∀ ls lb s q polys s' res col,
      intersection ls lb s q = .ok (s', res) →
      coercePolygons q = .ok polys →
      col ∈ s.targetCols.getD [] →
      alookup col res =
        some (weightedSum col
          (overlayIntersection ((s'.data.getD emptyJoined).rows) polys)))
    ∧ (∀ rows polys f, f ∈ overlayIntersection rows polys →
        ∃ r ∈ rows, ∃ p ∈ polys,
          f.inter = (Rect.inter r.geom p).area ∧ f.area = r.area ∧
          f.ratio = f.inter / f.area)
    ∧ getCount (intersection demoStats demoBounds demoState demoQuery) "count"
        = 40 := by
  refine ⟨?_, ?_, ?_⟩
  · intro ls lb s q polys s' res col h hq hcol
    obtain ⟨polys', hq', hmem, hs', hres⟩ :=
      intersection_ok_inv ls lb s q s' res h
    rw [hq] at hq'
    obtain rfl : polys = polys' := by
      exact (Except.ok.injEq .. ▸ hq')
    subst hs' hres
    rw [aggregate_alookup]
    have hcols' : col ∈ (coerceCols (s.targetCols.getD [])
        ((setupData ls lb s).data.getD emptyJoined)).cols := by
      rw [coerceCols_eq_coerceFrame, coerceFrame_cols]
      exact hmem col hcol
    rw [if_pos ⟨hcol, hcols'⟩]
    rfl
  · intro rows polys f hf
    unfold overlayIntersection fragmentsOfRow at hf
    rcases List.mem_flatten.mp hf with ⟨l, hl, hfl⟩
    rcases List.mem_map.mp hl with ⟨r, hr, rfl⟩
    rcases List.mem_filterMap.mp hfl with ⟨p, hp, hfp⟩
    refine ⟨r, hr, p, hp, ?_⟩
    by_cases hpos : 0 < (Rect.inter r.geom p).area
    · rw [if_pos hpos] at hfp
      obtain rfl := Option.some.injEq .. ▸ hfp
      exact ⟨rfl, rfl, rfl⟩
    · rw [if_neg hpos] at hfp
      exact absurd hfp (by simp)
  · with_unfolding_all rfl

/-! ## Further path lemmas -/

theorem Rect.area_nonneg (r : Rect) : 0 ≤ r.area :=
  mul_nonneg (le_max_left 0 _) (le_max_left 0 _)

theorem intersection_err_of (ls : StatFrame) (lb : BoundFrame)
    (s : BoundedStatistic) (q : List QGeom) (e : PyError)
    (hq : coercePolygons q = .error e) :
    intersection ls lb s q = .error e := by
  unfold intersection
  rw [hq]

theorem intersection_keyError_of (ls : StatFrame) (lb : BoundFrame)
    (s : BoundedStatistic) (q : List QGeom) (polys : List Rect)
    (hq : coercePolygons q = .ok polys)
    (hcond : ¬ ∀ c ∈ s.targetCols.getD [],
      c ∈ ((setupData ls lb s).data.getD emptyJoined).cols) :
    intersection ls lb s q = .error .keyError := by
  have htc : (setupData ls lb s).targetCols = s.targetCols :=
    setupData_targetCols ls lb s
  unfold intersection
  rw [hq]
  show (if _ = true then _ else _) = _
  rw [if_neg]
  intro hall
  apply hcond
  intro c hc
  exact of_decide_eq_true (List.all_eq_true.mp hall c (by rw [htc]; exact hc))

theorem overlayIntersection_eq_nil (rows : List JoinedRow) (polys : List Rect)
    (h : ∀ r ∈ rows, ∀ p ∈ polys, (Rect.inter r.geom p).area = 0) :
    overlayIntersection rows polys = [] := by
  unfold overlayIntersection fragmentsOfRow
  induction rows with
  | nil => rfl
  | cons r rows ih =>
    show polys.filterMap _ ++ (rows.map _).flatten = []
    rw [List.append_eq_nil]
    constructor
    · apply List.filterMap_eq_nil_iff.mpr
      intro p hp
      show (if 0 < (Rect.inter r.geom p).area then _ else none) = none
      rw [if_neg]
      rw [h r (List.mem_cons_self r rows) p hp]
      exact lt_irrefl 0
    · exact ih (fun r' hr' p hp => h r' (List.mem_cons_of_mem r hr') p hp)

theorem aggregate_nil_frags (tc cols : List String)
    (h : ∀ c ∈ tc, c ∈ cols) :
    aggregate tc cols [] = tc.map (fun c => (c, 0)) := by
  induction tc with
  | nil => rfl
  | cons c tc ih =>
    unfold aggregate
    rw [List.filterMap_cons, if_pos (h c (List.mem_cons_self c tc)),
      List.map_cons]
    show (c, weightedSum c []) :: aggregate tc cols [] = _
    rw [ih (fun c' hc' => h c' (List.mem_cons_of_mem c hc'))]
    rfl

theorem coercePolygons_ok_of_rings (q : List QGeom)
    (h : ∀ g ∈ q, ∃ rr, g = QGeom.ring rr) :
    ∃ polys, coercePolygons q = .ok polys := by
  induction q with
  | nil => exact ⟨[], rfl⟩
  | cons g gs ih =>
    rcases h g (List.mem_cons_self g gs) with ⟨rr, rfl⟩
    rcases ih (fun g' hg' => h g' (List.mem_cons_of_mem _ hg')) with ⟨polys, hp⟩
    refine ⟨rr :: polys, ?_⟩
    show (coercePolygons gs).map (fun x => rr :: x) = _
    rw [hp]
    rfl

theorem setupData_update_data (ls : StatFrame) (lb : BoundFrame)
    (s : BoundedStatistic) (x v : Option JoinedFrame) :
    { setupData ls lb { s with data := x } with data := v }
      = { setupData ls lb s with data := v } := by
  obtain ⟨bu, bf, su, sf, k, tcs, rs, rb, dt⟩ := s
  dsimp only [setupData, buildDataStep, loadBoundsStep, loadStatsStep]
  split_ifs <;> rfl

/-- The run of `intersection` is a congruence in the dataset state: two states with the
same target columns, whose built joined datasets have the same columns and
coerce to the same frame, and which agree outside the `data` field, run
identically. -/
theorem intersection_congr (ls : StatFrame) (lb : BoundFrame)
    (s s0 : BoundedStatistic) (q : List QGeom)
    (htc : s0.targetCols = s.targetCols)
    (hcols : ((setupData ls lb s0).data.getD emptyJoined).cols
      = ((setupData ls lb s).data.getD emptyJoined).cols)
    (hcc : coerceCols (s.targetCols.getD [])
        ((setupData ls lb s0).data.getD emptyJoined)
      = coerceCols (s.targetCols.getD [])
        ((setupData ls lb s).data.getD emptyJoined))
    (hrest : ({ setupData ls lb s0 with data := none } : BoundedStatistic)
      = { setupData ls lb s with data := none }) :
    intersection ls lb s q = intersection ls lb s0 q := by
  cases hq : coercePolygons q with
  | error e =>
    rw [intersection_err_of ls lb s q e hq, intersection_err_of ls lb s0 q e hq]
  | ok polys =>
    by_cases hcond : ∀ c ∈ s.targetCols.getD [],
        c ∈ ((setupData ls lb s).data.getD emptyJoined).cols
    · have hcond0 : ∀ c ∈ s0.targetCols.getD [],
          c ∈ ((setupData ls lb s0).data.getD emptyJoined).cols := by
        rw [htc, hcols]
        exact hcond
      rw [intersection_ok_of ls lb s q polys hq hcond,
        intersection_ok_of ls lb s0 q polys hq hcond0, htc, hcc]
      have hstate : ∀ v : Option JoinedFrame,
          ({ setupData ls lb s0 with data := v } : BoundedStatistic)
            = { setupData ls lb s with data := v } := by
        intro v
        have h1 : ({ setupData ls lb s0 with data := v } : BoundedStatistic)
            = { ({ setupData ls lb s0 with data := none } : BoundedStatistic)
                with data := v } := rfl
        have h2 : ({ setupData ls lb s with data := v } : BoundedStatistic)
            = { ({ setupData ls lb s with data := none } : BoundedStatistic)
                with data := v } := rfl
        rw [h1, h2, hrest]
      rw [hstate]
    · have hcond0 : ¬ ∀ c ∈ s0.targetCols.getD [],
          c ∈ ((setupData ls lb s0).data.getD emptyJoined).cols := by
        rw [htc, hcols]
        exact hcond
      rw [intersection_keyError_of ls lb s q polys hq hcond,
        intersection_keyError_of ls lb s0 q polys hq hcond0]

/-! ## C7: disjoint query yields empty fragments and explicit zeros -/

/-- C7: a query boundary disjoint from every spatial unit of the joined
dataset produces an empty fragment sequence, raises no error, and the
aggregate result maps every target field present in the schema to `0`
(explicit zeroed keys, not omitted). -/
theorem intersection_zero_overlap (ls : StatFrame) (lb : BoundFrame)
    (s : BoundedStatistic) (d : JoinedFrame) (q : List QGeom)
    (polys : List Rect)
    (hd : s.data = some d)
    (hq : coercePolygons q = .ok polys)
    (hcols : ∀ c ∈ s.targetCols.getD [], c ∈ d.cols)
    (hdisj : ∀ r ∈ d.rows, ∀ p ∈ polys, (Rect.inter r.geom p).area = 0) :
    overlayIntersection (coerceCols (s.targetCols.getD []) d).rows polys = []
    ∧ intersection ls lb s q =
        .ok ({ setupData ls lb s with
               data := some (coerceCols (s.targetCols.getD []) d) },
             (s.targetCols.getD []).map (fun c => (c, 0))) := by
  have hget : (setupData ls lb s).data.getD emptyJoined = d := by
    rw [setupData_data_of_some ls lb s d hd]
    rfl
  have hmem : ∀ c ∈ s.targetCols.getD [],
      c ∈ ((setupData ls lb s).data.getD emptyJoined).cols := by
    simp only [hget]
    exact hcols
  have hnil : overlayIntersection
      (coerceCols (s.targetCols.getD []) d).rows polys = [] := by
    apply overlayIntersection_eq_nil
    intro r' hr' p hp
    rw [coerceCols_eq_coerceFrame] at hr'
    rcases List.mem_map.mp hr' with ⟨r, hr, rfl⟩
    exact hdisj r hr p hp
  refine ⟨hnil, ?_⟩
  rw [intersection_ok_of ls lb s q polys hq hmem]
  simp only [hget]
  rw [hnil, coerceCols_eq_coerceFrame, coerceFrame_cols,
    aggregate_nil_frags _ _ hcols, ← coerceCols_eq_coerceFrame]

/-- Witness for C7: a query rectangle far to the right of both demo units
yields no fragment and the explicit aggregate `count = 0`. -/
theorem intersection_zero_overlap_witness :
    overlayIntersection
      (coerceCols (demoPostState.targetCols.getD []) demoJoined).rows
      [⟨100, 200, 0, 10⟩] = []
    ∧ intersection demoStats demoBounds demoPostState
        [QGeom.ring ⟨100, 200, 0, 10⟩] =
        .ok ({ setupData demoStats demoBounds demoPostState with
               data := some (coerceCols (demoPostState.targetCols.getD [])
                 demoJoined) },
             (demoPostState.targetCols.getD []).map (fun c => (c, 0))) :=
  intersection_zero_overlap demoStats demoBounds demoPostState demoJoined
    [QGeom.ring ⟨100, 200, 0, 10⟩] [⟨100, 200, 0, 10⟩]
    rfl rfl (by decide) (by with_unfolding_all decide)

/-! ## C3: non-numeric cells are treated as zero -/

/-- C3: a unit with a non-numeric (unparseable) value, such as an empty
string, in a target field is treated exactly as if that cell held the number
0: the whole `intersection` run (result and final state) is unchanged by
replacing the cell with 0, and with a coercible query and present target
columns the run succeeds (no error; over ℚ the result is a rational, never
NaN). -/
theorem intersection_nonnumeric_as_zero (ls : StatFrame) (lb : BoundFrame)
    (s : BoundedStatistic) (d : JoinedFrame) (q : List QGeom)
    (pre post : List JoinedRow) (rg : Rect) (rar : ℚ)
    (a1 a2 : List (String × Cell)) (col : String) (t : String)
    (hd : s.data = some d)
    (hrows : d.rows = pre ++
      { geom := rg, attrs := a1 ++ (col, Cell.str t) :: a2, area := rar } :: post)
    (hcol : col ∈ s.targetCols.getD []) :
    intersection ls lb s q =
      intersection ls lb
        { s with data := some { d with rows := pre ++
            { geom := rg, attrs := a1 ++ (col, Cell.num 0) :: a2,
              area := rar } :: post } } q
    ∧ ((∀ c ∈ s.targetCols.getD [], c ∈ d.cols) →
        (∀ g ∈ q, ∃ rr, g = QGeom.ring rr) →
        ∃ s' res, intersection ls lb s q = .ok (s', res)) := by
  have hget : (setupData ls lb s).data.getD emptyJoined = d := by
    rw [setupData_data_of_some ls lb s d hd]
    rfl
  have hget0 : (setupData ls lb
      { s with data := some { d with rows := pre ++
        { geom := rg, attrs := a1 ++ (col, Cell.num 0) :: a2,
          area := rar } :: post } }).data.getD emptyJoined
      = { d with rows := pre ++
          { geom := rg, attrs := a1 ++ (col, Cell.num 0) :: a2,
            area := rar } :: post } := by
    rw [setupData_data_of_some _ _ _ _ rfl]
    rfl
  have hcell : coerceCellAt (s.targetCols.getD []) (col, Cell.num 0)
      = coerceCellAt (s.targetCols.getD []) (col, Cell.str t) := by
    unfold coerceCellAt
    rw [if_pos hcol, if_pos hcol]
    rfl
  have hrows2 :
      (pre ++ ({ geom := rg, attrs := a1 ++ (col, Cell.num 0) :: a2, area := rar } : JoinedRow) :: post).map
          (fun r => { r with attrs := r.attrs.map (coerceCellAt (s.targetCols.getD [])) })
        = (pre ++ ({ geom := rg, attrs := a1 ++ (col, Cell.str t) :: a2, area := rar } : JoinedRow) :: post).map
          (fun r => { r with attrs := r.attrs.map (coerceCellAt (s.targetCols.getD [])) }) := by
    rw [List.map_append, List.map_append, List.map_cons, List.map_cons]
    congr 2
    show ({ geom := rg, attrs := (a1 ++ (col, Cell.num 0) :: a2).map (coerceCellAt (s.targetCols.getD [])), area := rar } : JoinedRow) = _
    rw [List.map_append, List.map_append, List.map_cons, List.map_cons, hcell]
  have hco : coerceCols (s.targetCols.getD [])
      { d with rows := pre ++
        { geom := rg, attrs := a1 ++ (col, Cell.num 0) :: a2,
          area := rar } :: post }
      = coerceCols (s.targetCols.getD []) d := by
    rw [coerceCols_eq_coerceFrame, coerceCols_eq_coerceFrame]
    unfold coerceFrame
    congr 1
    rw [hrows]
    exact hrows2
  constructor
  · exact intersection_congr ls lb s
      { s with data := some { d with rows := pre ++
          { geom := rg, attrs := a1 ++ (col, Cell.num 0) :: a2,
            area := rar } :: post } } q rfl
      (by rw [hget, hget0]) (by rw [hget, hget0]; exact hco)
      (setupData_update_data ls lb s _ none)
  · intro hcols hrings
    rcases coercePolygons_ok_of_rings q hrings with ⟨polys, hq⟩
    exact ⟨_, _, intersection_ok_of ls lb s q polys hq
      (by simp only [hget]; exact hcols)⟩

/-- Witness for C3: the dirty concrete scenario (unit `B` has `count` cell
`""`) runs identically to the same dataset with that cell set to numeric 0,
and succeeds. -/
theorem intersection_nonnumeric_as_zero_witness :
    (intersection dirtyStats demoBounds
      { demoState with data := some demoDirtyJoined } demoQuery =
     intersection dirtyStats demoBounds
      { { demoState with data := some demoDirtyJoined } with
        data := some { demoDirtyJoined with rows :=
          [{ geom := ⟨0, 10, 0, 10⟩
             attrs := [("code", .str "A"), ("count", .num 50)], area := 100 }]
          ++ { geom := ⟨0, 10, 10, 20⟩
               attrs := [("code", .str "B")] ++ ("count", Cell.num 0) :: []
               area := 100 } :: [] } } demoQuery)
    ∧ ∃ s' res, intersection dirtyStats demoBounds
        { demoState with data := some demoDirtyJoined } demoQuery
        = .ok (s', res) := by
  have h := intersection_nonnumeric_as_zero dirtyStats demoBounds
    { demoState with data := some demoDirtyJoined } demoDirtyJoined demoQuery
    [{ geom := ⟨0, 10, 0, 10⟩
       attrs := [("code", .str "A"), ("count", .num 50)], area := 100 }]
    [] ⟨0, 10, 10, 20⟩ 100 [("code", .str "B")] [] "count" ""
    rfl rfl (by decide)
  exact ⟨h.1, h.2 (by decide)
    (fun g hg => ⟨⟨0, 5, 0, 20⟩, by
      rcases List.mem_singleton.mp hg with rfl
      rfl⟩)⟩

/-! ## C4 (corrected): `intersection` does mutate the shared joined dataset -/

/-- Counterexample to C4 as stated: after one `intersection` request on a
dataset whose build-time `count` column holds a non-numeric cell, the shared
joined dataset differs from its build-time value (the cell now holds numeric
0). -/
theorem intersection_mutates_counterexample :
    (intersection dirtyStats demoBounds demoState demoQuery).toOption.map
        (fun p => p.1.data) = some (some demoDirtyCoerced)
    ∧ (setupData dirtyStats demoBounds demoState).data = some demoDirtyJoined
    ∧ demoDirtyCoerced ≠ demoDirtyJoined := by
  refine ⟨by with_unfolding_all rfl, by with_unfolding_all rfl,
    by with_unfolding_all decide⟩

/-- C4 amended: the only mutation `intersection` performs on the shared
joined dataset is the in-place numeric coercion of the target columns
(data.py lines 247-251): after a successful run the stored dataset is the
build-time dataset with every target-column cell replaced by its numeric
coercion; the column list, row geometries, row areas and non-target cells
are unchanged, and the coercion is idempotent, so later requests leave the
dataset unchanged.  Fragments and the reprojected query remain local. -/
theorem intersection_mutation_is_coercion (ls : StatFrame) (lb : BoundFrame)
    (s : BoundedStatistic) (q : List QGeom) (s' : BoundedStatistic)
    (res : List (String × ℚ))
    (h : intersection ls lb s q = .ok (s', res)) :
    s'.data = some (coerceFrame (s.targetCols.getD [])
      ((setupData ls lb s).data.getD emptyJoined))
    ∧ (∀ tc d, (coerceFrame tc d).cols = d.cols
        ∧ (coerceFrame tc d).rows.map (fun r => r.geom)
            = d.rows.map (fun r => r.geom)
        ∧ (coerceFrame tc d).rows.map (fun r => r.area)
            = d.rows.map (fun r => r.area)
        ∧ (coerceFrame tc d).rows.map (fun r => r.attrs)
            = d.rows.map (fun r => r.attrs.map (coerceCellAt tc))
        ∧ coerceFrame tc (coerceFrame tc d) = coerceFrame tc d) := by
  obtain ⟨polys, hq, hmem, hs', hres⟩ := intersection_ok_inv ls lb s q s' res h
  subst hs'
  refine ⟨?_, fun tc d => ⟨coerceFrame_cols tc d, coerceFrame_geoms tc d,
    coerceFrame_areas tc d, coerceFrame_attrs tc d, coerceFrame_idem tc d⟩⟩
  show some (coerceCols (s.targetCols.getD [])
      ((setupData ls lb s).data.getD emptyJoined)) = _
  rw [coerceCols_eq_coerceFrame]

/-- Witness for the amended C4 on the dirty concrete scenario. -/
theorem intersection_mutation_is_coercion_witness :
    demoDirtyPostState.data = some (coerceFrame
      (demoState.targetCols.getD [])
      ((setupData dirtyStats demoBounds demoState).data.getD emptyJoined))
    ∧ (∀ tc d, (coerceFrame tc d).cols = d.cols
        ∧ (coerceFrame tc d).rows.map (fun r => r.geom)
            = d.rows.map (fun r => r.geom)
        ∧ (coerceFrame tc d).rows.map (fun r => r.area)
            = d.rows.map (fun r => r.area)
        ∧ (coerceFrame tc d).rows.map (fun r => r.attrs)
            = d.rows.map (fun r => r.attrs.map (coerceCellAt tc))
        ∧ coerceFrame tc (coerceFrame tc d) = coerceFrame tc d) :=
  intersection_mutation_is_coercion dirtyStats demoBounds demoState demoQuery
    demoDirtyPostState [("count", 25)] (by with_unfolding_all rfl)

/-! ## C9: geometry of two-rectangle partitions -/

theorem Rect.mem_def (x y : ℚ) (r : Rect) :
    Rect.Mem (x, y) r ↔ (r.x1 ≤ x ∧ x ≤ r.x2 ∧ r.y1 ≤ y ∧ y ≤ r.y2) :=
  Iff.rfl

theorem Rect.intMem_def (x y : ℚ) (r : Rect) :
    Rect.IntMem (x, y) r ↔ (r.x1 < x ∧ x < r.x2 ∧ r.y1 < y ∧ y < r.y2) :=
  Iff.rfl

theorem Rect.area_pos_iff (r : Rect) :
    0 < r.area ↔ r.x1 < r.x2 ∧ r.y1 < r.y2 := by
  unfold Rect.area
  constructor
  · intro h
    constructor
    · by_contra hx
      push_neg at hx
      rw [max_eq_left (by linarith : r.x2 - r.x1 ≤ 0), zero_mul] at h
      exact lt_irrefl 0 h
    · by_contra hy
      push_neg at hy
      rw [max_eq_left (by linarith : r.y2 - r.y1 ≤ 0), mul_zero] at h
      exact lt_irrefl 0 h
  · rintro ⟨hx, hy⟩
    rw [max_eq_right (by linarith : (0 : ℚ) ≤ r.x2 - r.x1),
      max_eq_right (by linarith : (0 : ℚ) ≤ r.y2 - r.y1)]
    exact mul_pos (by linarith) (by linarith)

theorem len1d_split (a b c m e : ℚ) (h1 : c ≤ m) (h2 : m ≤ e) :
    max 0 (min b e - max a c)
      = max 0 (min b m - max a c) + max 0 (min b e - max a m) := by
  simp only [max_def, min_def]
  split_ifs <;> linarith

theorem vsplit_area_add (Q L R : Rect) (h : IsVSplit Q L R)
    (hL : L.x1 ≤ L.x2) (hR : R.x1 ≤ R.x2) (u : Rect) :
    (Rect.inter u Q).area = (Rect.inter u L).area + (Rect.inter u R).area := by
  obtain ⟨e1, e2, e3, e4, e5, e6, e7⟩ := h
  have hc : Q.x1 ≤ L.x2 := by rw [← e1]; exact hL
  have hm : L.x2 ≤ Q.x2 := by rw [← e3, e2]; exact hR
  unfold Rect.inter Rect.area
  dsimp only
  rw [e4, e5, e6, e7, e1, ← e2, e3]
  rw [len1d_split u.x1 u.x2 Q.x1 L.x2 Q.x2 hc hm]
  ring

theorem hsplit_area_add (Q B T : Rect) (h : IsHSplit Q B T)
    (hB : B.y1 ≤ B.y2) (hT : T.y1 ≤ T.y2) (u : Rect) :
    (Rect.inter u Q).area = (Rect.inter u B).area + (Rect.inter u T).area := by
  obtain ⟨e1, e2, e3, e4, e5, e6, e7⟩ := h
  have hc : Q.y1 ≤ B.y2 := by rw [← e1]; exact hB
  have hm : B.y2 ≤ Q.y2 := by rw [← e3, e2]; exact hT
  unfold Rect.inter Rect.area
  dsimp only
  rw [e4, e5, e6, e7, e1, ← e2, e3]
  rw [len1d_split u.y1 u.y2 Q.y1 B.y2 Q.y2 hc hm]
  ring

theorem subrect_interior_overlap (Q1 Q2 : Rect)
    (hx : Q1.x1 ≤ Q2.x1) (hx' : Q2.x2 ≤ Q1.x2)
    (hy : Q1.y1 ≤ Q2.y1) (hy' : Q2.y2 ≤ Q1.y2)
    (h2x : Q2.x1 < Q2.x2) (h2y : Q2.y1 < Q2.y2)
    (hD : ∀ p, ¬(Rect.IntMem p Q1 ∧ Rect.IntMem p Q2)) : False := by
  apply hD ((Q2.x1 + Q2.x2) / 2, (Q2.y1 + Q2.y2) / 2)
  constructor
  · exact (Rect.intMem_def _ _ Q1).mpr
      ⟨by linarith, by linarith, by linarith, by linarith⟩
  · exact (Rect.intMem_def _ _ Q2).mpr
      ⟨by linarith, by linarith, by linarith, by linarith⟩

/-- Classification, anchored case: two nondegenerate rectangles with
interiors disjoint whose union is the rectangle `Q`, with `Q1` holding the
bottom-left corner of `Q`, form a vertical or a horizontal split of `Q` with
`Q1` on the left or bottom. -/
theorem split_of_partition_aux (Q Q1 Q2 : Rect)
    (h1x : Q1.x1 < Q1.x2) (h1y : Q1.y1 < Q1.y2)
    (h2x : Q2.x1 < Q2.x2) (h2y : Q2.y1 < Q2.y2)
    (hU : ∀ p, Rect.Mem p Q ↔ (Rect.Mem p Q1 ∨ Rect.Mem p Q2))
    (hD : ∀ p, ¬(Rect.IntMem p Q1 ∧ Rect.IntMem p Q2))
    (hc : Rect.Mem (Q.x1, Q.y1) Q1) :
    IsVSplit Q Q1 Q2 ∨ IsHSplit Q Q1 Q2 := by
  have sub1 : ∀ p, Rect.Mem p Q1 → Rect.Mem p Q :=
    fun p hp => (hU p).mpr (Or.inl hp)
  have sub2 : ∀ p, Rect.Mem p Q2 → Rect.Mem p Q :=
    fun p hp => (hU p).mpr (Or.inr hp)
  obtain ⟨hA1, _, hC1, _⟩ := (Rect.mem_def Q1.x1 Q1.y1 Q).mp
    (sub1 _ ((Rect.mem_def Q1.x1 Q1.y1 Q1).mpr
      ⟨le_refl _, le_of_lt h1x, le_refl _, le_of_lt h1y⟩))
  obtain ⟨_, hB1, _, hD1⟩ := (Rect.mem_def Q1.x2 Q1.y2 Q).mp
    (sub1 _ ((Rect.mem_def Q1.x2 Q1.y2 Q1).mpr
      ⟨le_of_lt h1x, le_refl _, le_of_lt h1y, le_refl _⟩))
  obtain ⟨hA2, _, hC2, _⟩ := (Rect.mem_def Q2.x1 Q2.y1 Q).mp
    (sub2 _ ((Rect.mem_def Q2.x1 Q2.y1 Q2).mpr
      ⟨le_refl _, le_of_lt h2x, le_refl _, le_of_lt h2y⟩))
  obtain ⟨_, hB2, _, hD2⟩ := (Rect.mem_def Q2.x2 Q2.y2 Q).mp
    (sub2 _ ((Rect.mem_def Q2.x2 Q2.y2 Q2).mpr
      ⟨le_of_lt h2x, le_refl _, le_of_lt h2y, le_refl _⟩))
  obtain ⟨ha1, _, hb1, _⟩ := (Rect.mem_def Q.x1 Q.y1 Q1).mp hc
  have ex1 : Q1.x1 = Q.x1 := le_antisymm ha1 hA1
  have ey1 : Q1.y1 = Q.y1 := le_antisymm hb1 hC1
  have hQx : Q.x1 ≤ Q.x2 := by linarith
  have hQy : Q.y1 ≤ Q.y2 := by linarith
  rcases (hU (Q.x2, Q.y2)).mp ((Rect.mem_def Q.x2 Q.y2 Q).mpr
      ⟨hQx, le_refl _, hQy, le_refl _⟩) with hbd | hbd
  · obtain ⟨_, hx2, _, hy2⟩ := (Rect.mem_def Q.x2 Q.y2 Q1).mp hbd
    exact (subrect_interior_overlap Q1 Q2 (by linarith) (by linarith)
      (by linarith) (by linarith) h2x h2y hD).elim
  · obtain ⟨_, hx2, _, hy2⟩ := (Rect.mem_def Q.x2 Q.y2 Q2).mp hbd
    have ex2 : Q2.x2 = Q.x2 := le_antisymm hB2 hx2
    have ey2 : Q2.y2 = Q.y2 := le_antisymm hD2 hy2
    rcases (hU (Q.x2, Q.y1)).mp ((Rect.mem_def Q.x2 Q.y1 Q).mpr
        ⟨hQx, le_refl _, le_refl _, hQy⟩) with hbc | hbc
    · obtain ⟨_, hxx, _, _⟩ := (Rect.mem_def Q.x2 Q.y1 Q1).mp hbc
      have ex1b : Q1.x2 = Q.x2 := le_antisymm hB1 hxx
      rcases (hU (Q.x1, Q.y2)).mp ((Rect.mem_def Q.x1 Q.y2 Q).mpr
          ⟨le_refl _, hQx, hQy, le_refl _⟩) with had | had
      · obtain ⟨_, _, _, hyy⟩ := (Rect.mem_def Q.x1 Q.y2 Q1).mp had
        exact (subrect_interior_overlap Q1 Q2 (by linarith) (by linarith)
          (by linarith) (by linarith) h2x h2y hD).elim
      · obtain ⟨hxa, _, _, _⟩ := (Rect.mem_def Q.x1 Q.y2 Q2).mp had
        have ex2a : Q2.x1 = Q.x1 := le_antisymm hxa hA2
        have hcut : Q2.y1 = Q1.y2 := by
          rcases lt_trichotomy Q1.y2 Q2.y1 with hlt | heq | hgt
          · exfalso
            have hmemQ : Rect.Mem (Q.x1, (Q1.y2 + Q2.y1) / 2) Q :=
              (Rect.mem_def _ _ Q).mpr
                ⟨le_refl _, hQx, by linarith, by linarith⟩
            rcases (hU _).mp hmemQ with hm | hm
            · obtain ⟨_, _, _, hy⟩ := (Rect.mem_def _ _ Q1).mp hm
              linarith
            · obtain ⟨_, _, hy, _⟩ := (Rect.mem_def _ _ Q2).mp hm
              linarith
          · exact heq.symm
          · exfalso
            apply hD ((Q.x1 + Q.x2) / 2, (Q2.y1 + Q1.y2) / 2)
            have hxlt : Q.x1 < Q.x2 := by linarith
            constructor
            · exact (Rect.intMem_def _ _ Q1).mpr
                ⟨by linarith, by linarith, by linarith, by linarith⟩
            · exact (Rect.intMem_def _ _ Q2).mpr
                ⟨by linarith, by linarith, by linarith, by linarith⟩
        right
        exact ⟨ey1, hcut.symm, ey2, ex1, ex1b, ex2a, ex2⟩
    · obtain ⟨_, _, hya, _⟩ := (Rect.mem_def Q.x2 Q.y1 Q2).mp hbc
      have ey2a : Q2.y1 = Q.y1 := le_antisymm hya hC2
      rcases (hU (Q.x1, Q.y2)).mp ((Rect.mem_def Q.x1 Q.y2 Q).mpr
          ⟨le_refl _, hQx, hQy, le_refl _⟩) with had | had
      · obtain ⟨_, _, _, hyy⟩ := (Rect.mem_def Q.x1 Q.y2 Q1).mp had
        have ey1b : Q1.y2 = Q.y2 := le_antisymm hD1 hyy
        have hcut : Q2.x1 = Q1.x2 := by
          rcases lt_trichotomy Q1.x2 Q2.x1 with hlt | heq | hgt
          · exfalso
            have hmemQ : Rect.Mem ((Q1.x2 + Q2.x1) / 2, Q.y1) Q :=
              (Rect.mem_def _ _ Q).mpr
                ⟨by linarith, by linarith, le_refl _, hQy⟩
            rcases (hU _).mp hmemQ with hm | hm
            · obtain ⟨_, hx, _, _⟩ := (Rect.mem_def _ _ Q1).mp hm
              linarith
            · obtain ⟨hx, _, _, _⟩ := (Rect.mem_def _ _ Q2).mp hm
              linarith
          · exact heq.symm
          · exfalso
            apply hD ((Q2.x1 + Q1.x2) / 2, (Q.y1 + Q.y2) / 2)
            have hylt : Q.y1 < Q.y2 := by linarith
            constructor
            · exact (Rect.intMem_def _ _ Q1).mpr
                ⟨by linarith, by linarith, by linarith, by linarith⟩
            · exact (Rect.intMem_def _ _ Q2).mpr
                ⟨by linarith, by linarith, by linarith, by linarith⟩
        left
        exact ⟨ex1, hcut.symm, ex2, ey1, ey1b, ey2a, ey2⟩
      · obtain ⟨hxa, _, _, _⟩ := (Rect.mem_def Q.x1 Q.y2 Q2).mp had
        have ex2a : Q2.x1 = Q.x1 := le_antisymm hxa hA2
        exact (subrect_interior_overlap Q2 Q1 (by linarith) (by linarith)
          (by linarith) (by linarith) h1x h1y
          (fun p hp => hD p ⟨hp.2, hp.1⟩)).elim

/-- Classification: a partition of a rectangle `Q` into two positive-area
rectangles with disjoint interiors is an axis-aligned split. -/
theorem split_of_partition (Q Q1 Q2 : Rect)
    (h1 : 0 < Q1.area) (h2 : 0 < Q2.area)
    (hU : ∀ p, Rect.Mem p Q ↔ (Rect.Mem p Q1 ∨ Rect.Mem p Q2))
    (hD : ∀ p, ¬(Rect.IntMem p Q1 ∧ Rect.IntMem p Q2)) :
    (IsVSplit Q Q1 Q2 ∨ IsHSplit Q Q1 Q2)
      ∨ (IsVSplit Q Q2 Q1 ∨ IsHSplit Q Q2 Q1) := by
  obtain ⟨h1x, h1y⟩ := (Rect.area_pos_iff Q1).mp h1
  obtain ⟨h2x, h2y⟩ := (Rect.area_pos_iff Q2).mp h2
  have sub1 : ∀ p, Rect.Mem p Q1 → Rect.Mem p Q :=
    fun p hp => (hU p).mpr (Or.inl hp)
  obtain ⟨hA1, _, hC1, _⟩ := (Rect.mem_def Q1.x1 Q1.y1 Q).mp
    (sub1 _ ((Rect.mem_def Q1.x1 Q1.y1 Q1).mpr
      ⟨le_refl _, le_of_lt h1x, le_refl _, le_of_lt h1y⟩))
  obtain ⟨_, hB1, _, hD1⟩ := (Rect.mem_def Q1.x2 Q1.y2 Q).mp
    (sub1 _ ((Rect.mem_def Q1.x2 Q1.y2 Q1).mpr
      ⟨le_of_lt h1x, le_refl _, le_of_lt h1y, le_refl _⟩))
  have hmemc : Rect.Mem (Q.x1, Q.y1) Q := (Rect.mem_def _ _ Q).mpr
    ⟨le_refl _, by linarith, le_refl _, by linarith⟩
  rcases (hU _).mp hmemc with hc | hc
  · exact Or.inl (split_of_partition_aux Q Q1 Q2 h1x h1y h2x h2y hU hD hc)
  · exact Or.inr (split_of_partition_aux Q Q2 Q1 h2x h2y h1x h1y
      (fun p => (hU p).trans or_comm) (fun p hp => hD p ⟨hp.2, hp.1⟩) hc)

/-- Area additivity of a two-rectangle partition against any rectangle. -/
theorem partition_area_add (Q Q1 Q2 : Rect)
    (h1 : 0 < Q1.area) (h2 : 0 < Q2.area)
    (hU : ∀ p, Rect.Mem p Q ↔ (Rect.Mem p Q1 ∨ Rect.Mem p Q2))
    (hD : ∀ p, ¬(Rect.IntMem p Q1 ∧ Rect.IntMem p Q2)) (u : Rect) :
    (Rect.inter u Q).area = (Rect.inter u Q1).area + (Rect.inter u Q2).area := by
  obtain ⟨h1x, h1y⟩ := (Rect.area_pos_iff Q1).mp h1
  obtain ⟨h2x, h2y⟩ := (Rect.area_pos_iff Q2).mp h2
  rcases split_of_partition Q Q1 Q2 h1 h2 hU hD with (hs | hs) | (hs | hs)
  · exact vsplit_area_add Q Q1 Q2 hs (le_of_lt h1x) (le_of_lt h2x) u
  · exact hsplit_area_add Q Q1 Q2 hs (le_of_lt h1y) (le_of_lt h2y) u
  · rw [vsplit_area_add Q Q2 Q1 hs (le_of_lt h2x) (le_of_lt h1x) u]
    ring
  · rw [hsplit_area_add Q Q2 Q1 hs (le_of_lt h2y) (le_of_lt h1y) u]
    ring

theorem sum_map_add {α : Type} (l : List α) (f g : α → ℚ) :
    (l.map (fun x => f x + g x)).sum = (l.map f).sum + (l.map g).sum := by
  induction l with
  | nil => simp
  | cons x l ih =>
    simp only [List.map_cons, List.sum_cons, ih]
    ring

theorem fragmentsOfRow_sum (col : String) (r : JoinedRow) (polys : List Rect) :
    ((fragmentsOfRow r polys).map (fun f => attrNum col f.attrs * f.ratio)).sum
      = (polys.map (fun p =>
          attrNum col r.attrs * ((Rect.inter r.geom p).area / r.area))).sum := by
  induction polys with
  | nil => rfl
  | cons p polys ih =>
    by_cases hpos : 0 < (Rect.inter r.geom p).area
    · have hstep : fragmentsOfRow r (p :: polys)
          = ({ attrs := r.attrs, area := r.area, inter := (Rect.inter r.geom p).area, ratio := (Rect.inter r.geom p).area / r.area } : Fragment) :: fragmentsOfRow r polys := by
        simp only [fragmentsOfRow, List.filterMap_cons, hpos, if_true]
      rw [hstep, List.map_cons, List.sum_cons, List.map_cons, List.sum_cons, ih]
    · have hstep : fragmentsOfRow r (p :: polys) = fragmentsOfRow r polys := by
        simp only [fragmentsOfRow, List.filterMap_cons, hpos, if_false]
      rw [hstep, ih, List.map_cons, List.sum_cons]
      have ha : (Rect.inter r.geom p).area = 0 :=
        le_antisymm (not_lt.mp hpos) (Rect.area_nonneg _)
      rw [ha, zero_div, mul_zero, zero_add]

/-- The weighted sum over the overlay fragments equals the unfiltered double
sum over all (unit, query polygon) pairs: pairs dropped by the overlay have
zero intersection area and contribute zero. -/
theorem weightedSum_overlay (col : String) (rows : List JoinedRow)
    (polys : List Rect) :
    weightedSum col (overlayIntersection rows polys)
      = (rows.map (fun r => (polys.map (fun p =>
          attrNum col r.attrs * ((Rect.inter r.geom p).area / r.area))).sum)).sum := by
  unfold weightedSum overlayIntersection
  induction rows with
  | nil => rfl
  | cons r rows ih =>
    simp only [List.map_cons, List.flatten_cons, List.map_append,
      List.sum_append, List.sum_cons]
    rw [ih]
    congr 1
    exact fragmentsOfRow_sum col r polys

/-- C9: the partition law. For every query rectangle `Q` partitioned into
two positive-area sub-rectangles `Q1`, `Q2` with disjoint interiors whose
union is exactly `Q`, and every field, the sum of the two sub-boundaries'
aggregate values equals the aggregate value of the whole boundary, under
exact rational arithmetic.  (When the run fails, all three reported values
are zero and the law holds trivially.) -/
theorem intersection_partition_additivity (ls : StatFrame) (lb : BoundFrame)
    (s : BoundedStatistic) (col : String) (Q Q1 Q2 : Rect)
    (h1 : 0 < Q1.area) (h2 : 0 < Q2.area)
    (hU : ∀ p, Rect.Mem p Q ↔ (Rect.Mem p Q1 ∨ Rect.Mem p Q2))
    (hD : ∀ p, ¬(Rect.IntMem p Q1 ∧ Rect.IntMem p Q2)) :
    getCount (intersection ls lb s [QGeom.ring Q1]) col
      + getCount (intersection ls lb s [QGeom.ring Q2]) col
      = getCount (intersection ls lb s [QGeom.ring Q]) col := by
  have hq : ∀ R : Rect, coercePolygons [QGeom.ring R] = .ok [R] := fun R => rfl
  by_cases hcond : ∀ c ∈ s.targetCols.getD [],
      c ∈ ((setupData ls lb s).data.getD emptyJoined).cols
  · rw [intersection_ok_of ls lb s _ [Q] (hq Q) hcond,
      intersection_ok_of ls lb s _ [Q1] (hq Q1) hcond,
      intersection_ok_of ls lb s _ [Q2] (hq Q2) hcond]
    simp only [getCount]
    rw [aggregate_alookup, aggregate_alookup, aggregate_alookup]
    by_cases hmem : col ∈ s.targetCols.getD [] ∧
        col ∈ (coerceCols (s.targetCols.getD [])
          ((setupData ls lb s).data.getD emptyJoined)).cols
    · rw [if_pos hmem, if_pos hmem, if_pos hmem]
      simp only [Option.getD_some]
      rw [weightedSum_overlay, weightedSum_overlay, weightedSum_overlay,
        ← sum_map_add]
      congr 1
      apply List.map_congr_left
      intro r _
      simp only [List.map_cons, List.map_nil, List.sum_cons, List.sum_nil,
        add_zero]
      rw [← mul_add, div_add_div_same,
        ← partition_area_add Q Q1 Q2 h1 h2 hU hD r.geom]
    · rw [if_neg hmem, if_neg hmem, if_neg hmem]
      simp
  · rw [intersection_keyError_of ls lb s _ [Q] (hq Q) hcond,
      intersection_keyError_of ls lb s _ [Q1] (hq Q1) hcond,
      intersection_keyError_of ls lb s _ [Q2] (hq Q2) hcond]
    simp [getCount]

/-- Witness for C9: on the concrete scenario, splitting the query rectangle
`[0,5] × [0,20]` at `y = 10` gives sub-aggregates 25 and 15, summing to the
whole aggregate 40. -/
theorem intersection_partition_additivity_witness :
    getCount (intersection demoStats demoBounds demoState
        [QGeom.ring ⟨0, 5, 0, 10⟩]) "count"
      + getCount (intersection demoStats demoBounds demoState
          [QGeom.ring ⟨0, 5, 10, 20⟩]) "count"
      = getCount (intersection demoStats demoBounds demoState
          [QGeom.ring ⟨0, 5, 0, 20⟩]) "count" := by
  apply intersection_partition_additivity demoStats demoBounds demoState
    "count" ⟨0, 5, 0, 20⟩ ⟨0, 5, 0, 10⟩ ⟨0, 5, 10, 20⟩
  · with_unfolding_all decide
  · with_unfolding_all decide
  · intro p
    simp only [Rect.Mem]
    constructor
    · rintro ⟨hx1, hx2, hy1, hy2⟩
      rcases le_total p.2 10 with h | h
      · exact Or.inl ⟨hx1, hx2, hy1, h⟩
      · exact Or.inr ⟨hx1, hx2, h, hy2⟩
    · rintro (⟨hx1, hx2, hy1, hy2⟩ | ⟨hx1, hx2, hy1, hy2⟩)
      · exact ⟨hx1, hx2, hy1, by linarith⟩
      · exact ⟨hx1, hx2, by linarith, hy2⟩
  · rintro p ⟨hp1, hp2⟩
    simp only [Rect.IntMem] at hp1 hp2
    linarith [hp1.2.2.2, hp2.2.2.1]

/-- Witness for C1: the concrete scenario run succeeds with aggregate
`count = 40`, and the theorem's weighted-sum characterisation holds at it. -/
theorem intersection_weighted_sum_witness :
    intersection demoStats demoBounds demoState demoQuery
      = .ok (demoPostState, [("count", 40)]) ∧
    alookup "count" [("count", (40 : ℚ))] =
      some (weightedSum "count"
        (overlayIntersection ((demoPostState.data.getD emptyJoined).rows)
          [⟨0, 5, 0, 20⟩])) := by
  have h : intersection demoStats demoBounds demoState demoQuery
      = .ok (demoPostState, [("count", 40)]) := by with_unfolding_all rfl
  exact ⟨h, intersection_weighted_sum.1 demoStats demoBounds demoState
    demoQuery [⟨0, 5, 0, 20⟩] demoPostState [("count", 40)] "count" h
    (by with_unfolding_all rfl) (by decide)⟩

end Govsplice
